import Mathlib

/-!
Shallow embedding of the 3DM-import module (freecad/importNURBS/import3DM.py).

The embedding follows the source file: the converter methods of the class
Rhino2FC become pure functions, the dispatch chain of File3dm.import_geometry
and File3dm.import_curve becomes a total function on a closed variant type,
and the stateful loops of File3dm.parse_objects and File3dm.parse_layers
become explicit state-passing functions.  Machine floats of the source are
modelled by exact rationals; the one real-valued quantity (the rotation
angle produced by the host getAngle method) is modelled over the reals.
Failure (the Python ZeroDivisionError raised when a control-point weight is
zero, named DegenerateWeightError by the documentation) is modelled with
the Except monad.
-/

/-- Error raised during translation.  The only failure the translator itself
can produce is the degenerate-weight failure of get_point_and_weight (a
ZeroDivisionError in the source, DegenerateWeightError in the documentation). -/
inductive ImportFault where
  | degenerateWeight
deriving DecidableEq

/-- Embedding of FreeCAD.Vector: a 3-component vector.  Components are exact
rationals standing for the machine floats of the source. -/
structure Vec3 where
  x : ℚ
  y : ℚ
  z : ℚ
deriving DecidableEq

/-- Embedding of rhino3dm.Point4d: a homogeneous control point. -/
structure Point4d where
  X : ℚ
  Y : ℚ
  Z : ℚ
  W : ℚ
deriving DecidableEq

/-- Embedding of Rhino2FC.get_point_and_weight.  The source computes
FreeCAD.Vector(X/W, Y/W, Z/W) and returns it with W; when W = 0 the three
divisions raise ZeroDivisionError, modelled as the error branch here. -/
def get_point_and_weight (p : Point4d) : Except ImportFault (Vec3 × ℚ) :=
  if p.W = 0 then .error .degenerateWeight
  else .ok (⟨p.X / p.W, p.Y / p.W, p.Z / p.W⟩, p.W)

/-- Embedding of Rhino2FC.get_point: copies the three components. -/
def get_point (p : Vec3) : Vec3 :=
  ⟨p.x, p.y, p.z⟩

/-- Embedding of Rhino2FC.get_color: channel-wise division by 255 of an
(r,g,b,a) color. -/
def get_color (c : ℚ × ℚ × ℚ × ℚ) : ℚ × ℚ × ℚ × ℚ :=
  (c.1 / 255, c.2.1 / 255, c.2.2.1 / 255, c.2.2.2 / 255)

/-- Model of the Python built-in int() applied to a rational: truncation
toward zero. -/
def pyInt (x : ℚ) : ℤ :=
  if 0 ≤ x then ⌊x⌋ else ⌈x⌉

/-- Embedding of Rhino2FC.get_color_and_transparency.  The source divides
every channel by 255 and returns ((r,g,b), int((1-a)*100)) where a is the
already-divided alpha channel. -/
def get_color_and_transparency (c : ℚ × ℚ × ℚ × ℚ) : (ℚ × ℚ × ℚ) × ℤ :=
  ((c.1 / 255, c.2.1 / 255, c.2.2.1 / 255), pyInt ((1 - c.2.2.2 / 255) * 100))

/-- Model of the host method FreeCAD.Vector.cross: the standard vector cross
product. -/
def cross (a b : Vec3) : Vec3 :=
  ⟨a.y * b.z - a.z * b.y, a.z * b.x - a.x * b.z, a.x * b.y - a.y * b.x⟩

/-- Dot product of two vectors, used by the angle model. -/
def dot3 (a b : Vec3) : ℚ :=
  a.x * b.x + a.y * b.y + a.z * b.z

/-- Model of the host method FreeCAD.Vector.getAngle: the angle in radians
between two vectors, arccos of the normalized dot product. -/
noncomputable def getAngle (a b : Vec3) : ℝ :=
  Real.arccos ((dot3 a b : ℝ) / (Real.sqrt (dot3 a a) * Real.sqrt (dot3 b b)))

/-- Embedding of FreeCAD.Placement as built by get_placement: a position, a
rotation axis and a rotation angle in degrees. -/
structure Placement where
  position : Vec3
  axis : Vec3
  angleDeg : ℝ

/-- The world Z axis used by get_placement. -/
def zAxis : Vec3 :=
  ⟨0, 0, 1⟩

/-- Embedding of Rhino2FC.get_placement: rotation axis is (0,0,1) cross the
normal, the angle is getAngle converted from radians to degrees, the position
is the center passed through get_point. -/
noncomputable def get_placement (center normal : Vec3) : Placement :=
  { position := get_point center
    axis := cross zAxis (get_point normal)
    angleDeg := getAngle zAxis (get_point normal) * 180 / Real.pi }

/-- Increment of the first multiplicity, modelling the statement
mults[0] += 1 of get_FCKnots. -/
def boostFirst : List ℕ → List ℕ
  | [] => []
  | m :: ms => (m + 1) :: ms

/-- Increment of the last multiplicity, modelling the statement
mults[-1] += 1 of get_FCKnots. -/
def boostLast : List ℕ → List ℕ
  | [] => []
  | [m] => [m + 1]
  | m :: m2 :: ms => m :: boostLast (m2 :: ms)

/-- Embedding of Rhino2FC.get_FCKnots: the distinct knot values sorted
ascending (set + sort in the source), the per-knot occurrence counts, and
the two end increments applied in source order (first, then last). -/
def get_FCKnots (fknots : List ℚ) : List ℚ × List ℕ :=
  let k := fknots
  let knots := List.insertionSort (· ≤ ·) k.dedup
  let mults := knots.map (fun kn => k.count kn)
  (knots, boostLast (boostFirst mults))

/-- Input data of get_bspline_curve: the relevant fields of a
rhino3dm.NurbsCurve. -/
structure NurbsCurveData where
  Degree : ℕ
  Points : List Point4d
  Knots : List ℚ
deriving DecidableEq

/-- Embedding of Part.BSplineCurve as assembled by get_bspline_curve via
buildFromPolesMultsKnots and setPeriodic. -/
structure BSplineCurve where
  poles : List Vec3
  weights : List ℚ
  mults : List ℕ
  knots : List ℚ
  degree : ℕ
  periodic : Bool
deriving DecidableEq

/-- Embedding of Rhino2FC.get_bspline_curve: dehomogenize every control
point in order, compact the knot vector, build with periodic = False, then
setPeriodic exactly when mu[0] < Degree + 1.  The source indexes mu[0]; it
is modelled by headD, identical whenever the knot list is non-empty. -/
def get_bspline_curve (c : NurbsCurveData) : Except ImportFault BSplineCurve :=
  match c.Points.mapM get_point_and_weight with
  | .error e => .error e
  | .ok pw =>
      .ok { poles := pw.map Prod.fst
            weights := pw.map Prod.snd
            mults := (get_FCKnots c.Knots).2
            knots := (get_FCKnots c.Knots).1
            degree := c.Degree
            periodic := decide ((get_FCKnots c.Knots).2.headD 0 < c.Degree + 1) }

/-- Input data of get_bspline_surface: the relevant fields of a
rhino3dm.NurbsSurface; the points come as a grid with rows indexed by U. -/
structure NurbsSurfaceData where
  DegreeU : ℕ
  DegreeV : ℕ
  Points : List (List Point4d)
  KnotsU : List ℚ
  KnotsV : List ℚ
deriving DecidableEq

/-- Embedding of Part.BSplineSurface as assembled by get_bspline_surface via
buildFromPolesMultsKnots, setUPeriodic and setVPeriodic. -/
structure BSplineSurface where
  poles : List (List Vec3)
  weights : List (List ℚ)
  multsU : List ℕ
  multsV : List ℕ
  knotsU : List ℚ
  knotsV : List ℚ
  degreeU : ℕ
  degreeV : ℕ
  uperiodic : Bool
  vperiodic : Bool
deriving DecidableEq

/-- Embedding of Rhino2FC.get_bspline_surface: dehomogenize the point grid
row by row, compact both knot vectors, build with both periodic flags False,
then set the U (resp. V) flag exactly when mu[0] < Degree(0) + 1
(resp. mv[0] < Degree(1) + 1). -/
def get_bspline_surface (s : NurbsSurfaceData) : Except ImportFault BSplineSurface :=
  match s.Points.mapM (fun row => row.mapM get_point_and_weight) with
  | .error e => .error e
  | .ok grid =>
      .ok { poles := grid.map (fun row => row.map Prod.fst)
            weights := grid.map (fun row => row.map Prod.snd)
            multsU := (get_FCKnots s.KnotsU).2
            multsV := (get_FCKnots s.KnotsV).2
            knotsU := (get_FCKnots s.KnotsU).1
            knotsV := (get_FCKnots s.KnotsV).1
            degreeU := s.DegreeU
            degreeV := s.DegreeV
            uperiodic := decide ((get_FCKnots s.KnotsU).2.headD 0 < s.DegreeU + 1)
            vperiodic := decide ((get_FCKnots s.KnotsV).2.headD 0 < s.DegreeV + 1) }

/-- Closed variant type for the geometry kinds inspected by the isinstance
chain of File3dm.import_geometry and File3dm.import_curve.  The curve
subclasses of rhino3dm (LineCurve, NurbsCurve, ArcCurve) are listed as their
own variants: the source reaches them through the single isinstance check
on the common Curve base class and then re-dispatches in import_curve.
Variants the source only prints are carried without payload.  For ArcCurve
and the generic Surface the payload is the data of the NURBS form produced
by the host conversions ToNurbsCurve and ToNurbsSurface. -/
inductive Geometry where
  | Brep (surfaces : List NurbsSurfaceData)
  | BezierCurve
  | Bitmap
  | Box
  | Circle (center normal : Vec3) (radius : ℚ)
  | Cone
  | LineCurve (p1 p2 : Vec3)
  | NurbsCurve (d : NurbsCurveData)
  | ArcCurve (d : NurbsCurveData)
  | Cylinder
  | Ellipse
  | Mesh
  | NurbsSurface (d : NurbsSurfaceData)
  | Point (location : Vec3)
  | PointCloud (pts : List Vec3)
  | Surface (d : NurbsSurfaceData)

/-- Document objects created by the dispatch: one variant per addObject call
of the source, carrying the geometric data attached there. -/
inductive DocObject where
  | faces (shapes : List BSplineSurface)
  | circle (radius : ℚ) (placement : Placement)
  | line (p1 p2 : Vec3)
  | nurbsCurveSpline (bs : BSplineCurve)
  | arcCurveSpline (bs : BSplineCurve)
  | mesh
  | nurbsSurface (s : BSplineSurface)
  | vertex (p : Vec3)
  | pointCloud (pts : List Vec3)

/-- Embedding of File3dm.import_curve: dispatch over the concrete curve
kind.  A curve kind matching none of the three branches leaves obj = None
and returns it; a degenerate weight inside get_bspline_curve propagates. -/
noncomputable def import_curve (g : Geometry) : Except ImportFault (Option DocObject) :=
  match g with
  | .LineCurve p1 p2 => .ok (some (.line p1 p2))
  | .NurbsCurve d =>
      match get_bspline_curve d with
      | .error e => .error e
      | .ok bs => .ok (some (.nurbsCurveSpline bs))
  | .ArcCurve d =>
      match get_bspline_curve d with
      | .error e => .error e
      | .ok bs => .ok (some (.arcCurveSpline bs))
  | _ => .ok none

/-- Embedding of File3dm.import_geometry: the isinstance chain.  Handled
variants return the created document object; the print-only variants
(BezierCurve, Bitmap, Box, Cone, Cylinder, Ellipse) fall through every
check and the function returns None; translation failures propagate
uncaught. -/
noncomputable def import_geometry (g : Geometry) : Except ImportFault (Option DocObject) :=
  match g with
  | .Brep surfaces =>
      match surfaces.mapM get_bspline_surface with
      | .error e => .error e
      | .ok ss => .ok (some (.faces ss))
  | .Circle center normal radius =>
      .ok (some (.circle radius (get_placement center normal)))
  | .LineCurve p1 p2 => import_curve (.LineCurve p1 p2)
  | .NurbsCurve d => import_curve (.NurbsCurve d)
  | .ArcCurve d => import_curve (.ArcCurve d)
  | .Mesh => .ok (some .mesh)
  | .NurbsSurface d =>
      match get_bspline_surface d with
      | .error e => .error e
      | .ok s => .ok (some (.nurbsSurface s))
  | .Point location => .ok (some (.vertex location))
  | .PointCloud pts => .ok (some (.pointCloud pts))
  | .Surface d =>
      match get_bspline_surface d with
      | .error e => .error e
      | .ok s => .ok (some (.nurbsSurface s))
  | _ => .ok none

/-- Embedding of a FreeCAD.Material as filled by parse_materials: only the
fields read back by parse_layers are kept. -/
structure FCMaterial where
  DiffuseColor : ℚ × ℚ × ℚ × ℚ
  Transparency : ℚ

/-- Embedding of the fields of a rhino3dm layer read by parse_layers. -/
structure Layer3dm where
  Color : ℚ × ℚ × ℚ × ℚ
  PlotColor : ℚ × ℚ × ℚ × ℚ
  RenderMaterialIndex : ℤ

/-- View colors assigned to one layer by parse_layers.  The shape color is
tracked through its three color channels: the source compares
ShapeColor[0:3] against (0,0,0) and overwrites with the 3-tuple (1,1,1). -/
structure LayerView where
  LineColor : ℚ × ℚ × ℚ × ℚ
  ShapeColor : ℚ × ℚ × ℚ

/-- First three components of a 4-component color, modelling the slice
ShapeColor[0:3] of the source. -/
def rgbPart (c : ℚ × ℚ × ℚ × ℚ) : ℚ × ℚ × ℚ :=
  (c.1, c.2.1, c.2.2.1)

/-- Embedding of the per-layer color assignment of File3dm.parse_layers
(the GuiUp branch): the material path is taken only when
0 < RenderMaterialIndex < number of parsed materials, otherwise line and
shape colors come from the layer PlotColor and Color; afterwards a pure
black shape color is replaced by white. -/
def layer_view_colors (materials : List FCMaterial) (l : Layer3dm) : LayerView :=
  let matIdx := l.RenderMaterialIndex
  let pair :=
    if 0 < matIdx ∧ matIdx < (materials.length : ℤ) then
      (((0 : ℚ), (0 : ℚ), (0 : ℚ), (0 : ℚ)),
        get_color ((materials.getD matIdx.toNat ⟨(0, 0, 0, 0), 0⟩).DiffuseColor))
    else
      (get_color l.PlotColor, get_color l.Color)
  { LineColor := pair.1
    ShapeColor := if rgbPart pair.2 = (0, 0, 0) then (1, 1, 1) else rgbPart pair.2 }

/-- Embedding of the fields of one entry of File3dm.Objects used by
parse_objects: the layer index of the attributes and the geometry. -/
structure Obj3dm where
  LayerIndex : ℕ
  geometry : Geometry

/-- State threaded through parse_objects: the document objects created so
far (addObject happens inside import_geometry in the source) and the Group
member list of every parsed layer, holding document-object indices. -/
structure ImportState where
  docObjects : List DocObject
  layerGroups : List (List ℕ)

/-- One iteration of the loop of File3dm.parse_objects: translate the
geometry; on None keep the state; on a created object append it to the
document and, only when its layer index is strictly below the number of
parsed layers, append its index to that layer group. -/
noncomputable def parse_step (st : ImportState) (o : Obj3dm) : Except ImportFault ImportState :=
  match import_geometry o.geometry with
  | .error e => .error e
  | .ok none => .ok st
  | .ok (some obj) =>
      if o.LayerIndex < st.layerGroups.length then
        .ok { docObjects := st.docObjects ++ [obj]
              layerGroups :=
                st.layerGroups.set o.LayerIndex
                  ((st.layerGroups.getD o.LayerIndex []) ++ [st.docObjects.length]) }
      else
        .ok { docObjects := st.docObjects ++ [obj], layerGroups := st.layerGroups }

/-- Embedding of the loop of File3dm.parse_objects over the object list: an
uncaught translation failure aborts the loop, as the uncaught Python
exception would. -/
noncomputable def parse_objects : List Obj3dm → ImportState → Except ImportFault ImportState
  | [], st => .ok st
  | o :: rest, st =>
      match parse_step st o with
      | .error e => .error e
      | .ok st2 => parse_objects rest st2

/-- Raw knot vector of the clamped degree-3 example: first and last knot
repeated four times. -/
def demoKnotsClamped : List ℚ :=
  [0, 0, 0, 0, 1, 2, 3, 4, 4, 4, 4]

/-- Raw knot vector of the uniform periodic degree-3 example: nine distinct
values, every raw multiplicity one. -/
def demoKnotsUniform : List ℚ :=
  [-3, -2, -1, 0, 1, 2, 3, 4, 5]

/-- Degree-3 curve data over the clamped knot vector (seven control points,
raw knot length 11 = 7 + 3 + 1). -/
def demoCurveClamped : NurbsCurveData :=
  ⟨3, List.replicate 7 ⟨0, 0, 0, 1⟩, demoKnotsClamped⟩

/-- Degree-3 curve data over the uniform knot vector (five control points,
raw knot length 9 = 5 + 3 + 1). -/
def demoCurveUniform : NurbsCurveData :=
  ⟨3, List.replicate 5 ⟨0, 0, 0, 1⟩, demoKnotsUniform⟩

/-- The spline that get_bspline_curve assembles from demoCurveUniform; the
pole components keep the unevaluated divisions 0/1 produced by
dehomogenization. -/
def demoBsUniform : BSplineCurve :=
  { poles := List.replicate 5 ⟨0 / 1, 0 / 1, 0 / 1⟩
    weights := List.replicate 5 1
    mults := [2, 1, 1, 1, 1, 1, 1, 1, 2]
    knots := [-3, -2, -1, 0, 1, 2, 3, 4, 5]
    degree := 3
    periodic := true }

theorem boostFirst_length (l : List ℕ) : (boostFirst l).length = l.length := by
  cases l <;> simp [boostFirst]

theorem boostLast_length (l : List ℕ) : (boostLast l).length = l.length := by
  induction l with
  | nil => rfl
  | cons m ms ih =>
    cases ms with
    | nil => rfl
    | cons m2 ms2 => simpa [boostLast] using ih

theorem boostFirst_getElem (l : List ℕ) (i : ℕ) (h : i < l.length)
    (h2 : i < (boostFirst l).length) :
    (boostFirst l)[i] = l[i] + if i = 0 then 1 else 0 := by
  match l, i with
  | m :: ms, 0 => simp [boostFirst]
  | m :: ms, (j + 1) => simp [boostFirst]

theorem boostLast_getElem (l : List ℕ) (i : ℕ) (h : i < l.length)
    (h2 : i < (boostLast l).length) :
    (boostLast l)[i] = l[i] + if i = l.length - 1 then 1 else 0 := by
  induction l generalizing i with
  | nil => simp at h
  | cons m ms ih =>
    cases ms with
    | nil =>
      have hi : i = 0 := by simpa using h
      subst hi
      simp [boostLast]
    | cons m2 ms2 =>
      cases i with
      | zero =>
        simp [boostLast]
      | succ j =>
        have hj : j < (m2 :: ms2).length := by simpa using h
        have hj2 : j < (boostLast (m2 :: ms2)).length := by
          rw [boostLast_length]; exact hj
        have hrec := ih j hj hj2
        simp only [boostLast, List.getElem_cons_succ, List.length_cons]
        rw [hrec]
        by_cases hc : j = ms2.length
        · simp [hc]
        · have hc2 : ¬ (j = ms2.length + 1 + 1 - 1 - 1) := by
            simpa using hc
          simp [hc, hc2]

theorem get_FCKnots_fst (k : List ℚ) :
    (get_FCKnots k).1 = List.insertionSort (· ≤ ·) k.dedup := rfl

theorem get_FCKnots_snd (k : List ℚ) :
    (get_FCKnots k).2 =
      boostLast (boostFirst ((List.insertionSort (· ≤ ·) k.dedup).map
        (fun kn => k.count kn))) := rfl

/-- C1: for a non-empty non-decreasing raw knot vector, get_FCKnots returns
the strictly increasing list of distinct knot values of the input together
with a parallel multiplicity list in which every entry is the occurrence
count of its knot in the raw vector, except that the first and the last
entry each carry one extra increment. -/
theorem get_FCKnots_correct (k : List ℚ) (hne : k ≠ []) (hmono : k.Sorted (· ≤ ·)) :
    (get_FCKnots k).1.Sorted (· < ·) ∧
    (∀ x : ℚ, x ∈ (get_FCKnots k).1 ↔ x ∈ k) ∧
    (get_FCKnots k).2.length = (get_FCKnots k).1.length ∧
    ∀ i, ∀ h1 : i < (get_FCKnots k).1.length, ∀ h2 : i < (get_FCKnots k).2.length,
      (get_FCKnots k).2[i] =
        k.count ((get_FCKnots k).1[i]) + (if i = 0 then 1 else 0) +
          (if i = (get_FCKnots k).1.length - 1 then 1 else 0) := by
  simp only [get_FCKnots_fst, get_FCKnots_snd]
  refine ⟨?_, ?_, ?_, ?_⟩
  · exact (List.sorted_insertionSort _ _).lt_of_le
      ((List.perm_insertionSort _ _).nodup_iff.mpr k.nodup_dedup)
  · intro x
    simp [List.mem_insertionSort, List.mem_dedup]
  · rw [boostLast_length, boostFirst_length, List.length_map]
  · intro i h1 h2
    have hlen1 : i < (boostFirst ((List.insertionSort (· ≤ ·) k.dedup).map
        (fun kn => k.count kn))).length := by
      rw [boostFirst_length, List.length_map]; exact h1
    have hlen0 : i < ((List.insertionSort (· ≤ ·) k.dedup).map
        (fun kn => k.count kn)).length := by
      rw [List.length_map]; exact h1
    rw [boostLast_getElem _ i hlen1 h2, boostFirst_getElem _ i hlen0 hlen1,
      List.getElem_map]
    simp only [boostFirst_length, List.length_map]

/-- Witness for C1 at the raw knot vector [0, 0, 1]. -/
theorem get_FCKnots_correct_witness :
    List.Sorted (· < ·) (get_FCKnots [(0 : ℚ), 0, 1]).1 ∧
    (get_FCKnots [(0 : ℚ), 0, 1]).2.length = (get_FCKnots [(0 : ℚ), 0, 1]).1.length :=
  ⟨(get_FCKnots_correct [0, 0, 1] (by decide) (by decide)).1,
   (get_FCKnots_correct [0, 0, 1] (by decide) (by decide)).2.2.1⟩

theorem nodup_eq_singleton {α : Type*} {l : List α} {v : α} (hn : l.Nodup)
    (hm : ∀ x, x ∈ l ↔ x = v) : l = [v] := by
  cases l with
  | nil => exact absurd ((hm v).mpr rfl) (by simp)
  | cons a t =>
    have ha : a = v := (hm a).mp (by simp)
    cases t with
    | nil => rw [ha]
    | cons b t2 =>
      have hb : b = v := (hm b).mp (by simp)
      rw [List.nodup_cons] at hn
      exact absurd (by simp [ha, hb] : a ∈ b :: t2) hn.1

/-- C8: when the raw knot vector is non-empty and has exactly one distinct
value, get_FCKnots returns that single value with a single multiplicity
equal to the raw occurrence count plus two, the first-entry and last-entry
increments both landing on the same list cell. -/
theorem get_FCKnots_single (k : List ℚ) (v : ℚ) (hne : k ≠ [])
    (hall : ∀ x ∈ k, x = v) :
    get_FCKnots k = ([v], [k.count v + 2]) ∧ k.count v = k.length := by
  have hv : v ∈ k := by
    cases k with
    | nil => exact absurd rfl hne
    | cons a t =>
      rw [← hall a (by simp)]
      simp
  have hdedup : k.dedup = [v] :=
    nodup_eq_singleton k.nodup_dedup (fun x => by
      rw [List.mem_dedup]
      constructor
      · exact hall x
      · rintro rfl
        exact hv)
  constructor
  · simp only [get_FCKnots, hdedup]
    simp [List.insertionSort, List.orderedInsert, boostFirst, boostLast]
  · exact List.count_eq_length.mpr (fun b hb => (hall b hb).symm)

/-- Witness for C8 at the raw knot vector [5, 5, 5]. -/
theorem get_FCKnots_single_witness :
    get_FCKnots [(5 : ℚ), 5, 5] = ([5], [List.count 5 [(5 : ℚ), 5, 5] + 2]) ∧
    List.count 5 [(5 : ℚ), 5, 5] = List.length [(5 : ℚ), 5, 5] :=
  get_FCKnots_single [5, 5, 5] 5 (by decide) (by decide)

/-- C2: the periodic flag of a built curve is set exactly when the first
boosted multiplicity is strictly below degree + 1, the U and V flags of a
built surface follow the same rule against their own degrees, and on the
two concrete degree-3 examples the clamped knot vector gives boosted
multiplicities [5,1,1,1,5] and a non-periodic curve while the uniform knot
vector gives a periodic curve. -/
theorem periodicity_rule :
    (∀ (c : NurbsCurveData) (bs : BSplineCurve), get_bspline_curve c = .ok bs →
      (bs.periodic = true ↔ (get_FCKnots c.Knots).2.headD 0 < c.Degree + 1)) ∧
    (∀ (s : NurbsSurfaceData) (bs : BSplineSurface), get_bspline_surface s = .ok bs →
      ((bs.uperiodic = true ↔ (get_FCKnots s.KnotsU).2.headD 0 < s.DegreeU + 1) ∧
       (bs.vperiodic = true ↔ (get_FCKnots s.KnotsV).2.headD 0 < s.DegreeV + 1))) ∧
    (get_FCKnots demoKnotsClamped).2 = [5, 1, 1, 1, 5] ∧
    Except.map (fun bs => bs.periodic) (get_bspline_curve demoCurveClamped) =
      .ok false ∧
    Except.map (fun bs => bs.periodic) (get_bspline_curve demoCurveUniform) =
      .ok true := by
  refine ⟨?_, ?_, ?_, ?_, ?_⟩
  · intro c bs h
    simp only [get_bspline_curve] at h
    cases hm : c.Points.mapM get_point_and_weight with
    | error e =>
      rw [hm] at h
      simp at h
    | ok pw =>
      rw [hm] at h
      simp only [Except.ok.injEq] at h
      rw [← h]
      simp
  · intro s bs h
    simp only [get_bspline_surface] at h
    cases hm : s.Points.mapM (fun row => row.mapM get_point_and_weight) with
    | error e =>
      rw [hm] at h
      simp at h
    | ok grid =>
      rw [hm] at h
      simp only [Except.ok.injEq] at h
      rw [← h]
      constructor <;> simp
  · decide
  · rfl
  · rfl

/-- Witness for C2: the periodicity rule applied to the uniform-knot
degree-3 example curve. -/
theorem periodicity_rule_witness :
    demoBsUniform.periodic = true :=
  (periodicity_rule.1 demoCurveUniform demoBsUniform (by rfl)).mpr (by decide)

/-- C3: get_point_and_weight dehomogenizes a point with non-zero weight into
(X/W, Y/W, Z/W) paired with the weight W, and fails with the degenerate
weight error when W = 0. -/
theorem get_point_and_weight_correct (p : Point4d) :
    (p.W ≠ 0 →
      get_point_and_weight p = .ok (⟨p.X / p.W, p.Y / p.W, p.Z / p.W⟩, p.W)) ∧
    (p.W = 0 → get_point_and_weight p = .error .degenerateWeight) := by
  constructor
  · intro h
    simp [get_point_and_weight, h]
  · intro h
    simp [get_point_and_weight, h]

/-- Witness for C3 at the points (1,2,3,2) and (1,2,3,0). -/
theorem get_point_and_weight_correct_witness :
    get_point_and_weight ⟨1, 2, 3, 2⟩ = .ok (⟨1 / 2, 2 / 2, 3 / 2⟩, 2) ∧
    get_point_and_weight ⟨1, 2, 3, 0⟩ = .error .degenerateWeight :=
  ⟨(get_point_and_weight_correct ⟨1, 2, 3, 2⟩).1 (by norm_num),
   (get_point_and_weight_correct ⟨1, 2, 3, 0⟩).2 rfl⟩

/-- C4: get_placement keeps the center as position, uses the cross product
of the world Z axis with the normal as rotation axis and the angle between
the Z axis and the normal converted to degrees as rotation angle; for the
normal (0,0,1) parallel to the Z axis the axis is the zero vector and the
angle is zero, with no fault. -/
theorem get_placement_correct (center normal : Vec3) :
    (get_placement center normal).position = center ∧
    (get_placement center normal).axis = cross zAxis normal ∧
    (get_placement center normal).angleDeg = getAngle zAxis normal * 180 / Real.pi ∧
    (normal = ⟨0, 0, 1⟩ →
      (get_placement center normal).axis = ⟨0, 0, 0⟩ ∧
      (get_placement center normal).angleDeg = 0) := by
  refine ⟨rfl, rfl, rfl, ?_⟩
  rintro rfl
  constructor
  · show cross zAxis (get_point ⟨0, 0, 1⟩) = ⟨0, 0, 0⟩
    simp [cross, zAxis, get_point]
  · show getAngle zAxis (get_point ⟨0, 0, 1⟩) * 180 / Real.pi = 0
    have h1 : getAngle zAxis (⟨0, 0, 1⟩ : Vec3) = 0 := by
      have hd : dot3 zAxis (⟨0, 0, 1⟩ : Vec3) = 1 := by norm_num [dot3, zAxis]
      have hdz : dot3 zAxis zAxis = 1 := by norm_num [dot3, zAxis]
      have hdn : dot3 (⟨0, 0, 1⟩ : Vec3) (⟨0, 0, 1⟩ : Vec3) = 1 := by norm_num [dot3]
      simp only [getAngle, hd, hdz, hdn]
      norm_num [Real.arccos_one]
    have h2 : get_point (⟨0, 0, 1⟩ : Vec3) = (⟨0, 0, 1⟩ : Vec3) := rfl
    rw [h2, h1]
    simp

/-- Witness for C4 at center (0,0,0) and normal (0,0,1). -/
theorem get_placement_correct_witness :
    (get_placement ⟨0, 0, 0⟩ ⟨0, 0, 1⟩).axis = ⟨0, 0, 0⟩ ∧
    (get_placement ⟨0, 0, 0⟩ ⟨0, 0, 1⟩).angleDeg = 0 :=
  (get_placement_correct ⟨0, 0, 0⟩ ⟨0, 0, 1⟩).2.2.2 rfl

/-- Counterexample for C5: at the color (0,0,0,128) the source truncates
the opacity (1 - 128/255) * 100 = 49.8039... to 49 with int(), while the
claimed rounding would give 50. -/
theorem get_color_and_transparency_counterexample :
    (get_color_and_transparency (0, 0, 0, 128)).2 ≠
      round ((1 - (128 : ℚ) / 255) * 100) := by
  have h1 : (get_color_and_transparency (0, 0, 0, 128)).2 = 49 := by
    simp only [get_color_and_transparency, pyInt]
    rw [if_pos (by norm_num)]
    rw [Int.floor_eq_iff]
    constructor <;> norm_num
  have h2 : round ((1 - (128 : ℚ) / 255) * 100) = 50 := by
    rw [round_eq]
    rw [Int.floor_eq_iff]
    constructor <;> norm_num
  rw [h1, h2]
  decide

/-- C5 amended: get_color_and_transparency divides every channel by 255
(values in [0,1] for channels in [0,255]) and returns an opacity percent
equal to (1 - a/255) * 100 truncated toward zero, that is its floor, which
lies in [0,100]; on the two concrete inputs of the claim the results agree
with the claimed ones. -/
theorem get_color_and_transparency_amended :
    (∀ r g b a : ℚ, 0 ≤ r → r ≤ 255 → 0 ≤ g → g ≤ 255 → 0 ≤ b → b ≤ 255 →
      0 ≤ a → a ≤ 255 →
      (get_color_and_transparency (r, g, b, a)).1 = (r / 255, g / 255, b / 255) ∧
      (0 ≤ r / 255 ∧ r / 255 ≤ 1) ∧ (0 ≤ g / 255 ∧ g / 255 ≤ 1) ∧
      (0 ≤ b / 255 ∧ b / 255 ≤ 1) ∧
      (get_color_and_transparency (r, g, b, a)).2 = ⌊(1 - a / 255) * 100⌋ ∧
      0 ≤ (get_color_and_transparency (r, g, b, a)).2 ∧
      (get_color_and_transparency (r, g, b, a)).2 ≤ 100) ∧
    get_color_and_transparency (255, 0, 0, 255) = ((1, 0, 0), 0) ∧
    get_color_and_transparency (0, 0, 0, 0) = ((0, 0, 0), 100) := by
  refine ⟨?_, ?_, ?_⟩
  · intro r g b a hr0 hr1 hg0 hg1 hb0 hb1 ha0 ha1
    have hx : (0 : ℚ) ≤ (1 - a / 255) * 100 := by
      have : a / 255 ≤ 1 := by
        rw [div_le_one (by norm_num)]
        exact ha1
      nlinarith
    have hsnd : (get_color_and_transparency (r, g, b, a)).2 = ⌊(1 - a / 255) * 100⌋ := by
      simp only [get_color_and_transparency, pyInt]
      rw [if_pos hx]
    refine ⟨rfl, ?_, ?_, ?_, hsnd, ?_, ?_⟩
    · constructor
      · positivity
      · rw [div_le_one (by norm_num)]
        exact hr1
    · constructor
      · positivity
      · rw [div_le_one (by norm_num)]
        exact hg1
    · constructor
      · positivity
      · rw [div_le_one (by norm_num)]
        exact hb1
    · rw [hsnd]
      exact Int.floor_nonneg.mpr hx
    · rw [hsnd]
      have hle : (1 - a / 255) * 100 ≤ (100 : ℚ) := by
        have : 0 ≤ a / 255 := by positivity
        nlinarith
      have := Int.floor_le_floor hle
      simpa using this
  · simp only [get_color_and_transparency, pyInt]
    norm_num
  · simp only [get_color_and_transparency, pyInt]
    norm_num

/-- Witness for C5 amended at the color (0,0,0,128). -/
theorem get_color_and_transparency_amended_witness :
    (get_color_and_transparency (0, 0, 0, 128)).2 = ⌊(1 - (128 : ℚ) / 255) * 100⌋ ∧
    0 ≤ (get_color_and_transparency (0, 0, 0, 128)).2 ∧
    (get_color_and_transparency (0, 0, 0, 128)).2 ≤ 100 :=
  (get_color_and_transparency_amended.1 0 0 0 128 (by norm_num) (by norm_num)
    (by norm_num) (by norm_num) (by norm_num) (by norm_num) (by norm_num)
    (by norm_num)).2.2.2.2

/-- C6: the dispatcher returns None, with no error, on each of the six
print-only variants Bitmap, Box, Cone, Cylinder, Ellipse and BezierCurve. -/
theorem import_geometry_stubs :
    import_geometry .Bitmap = .ok none ∧
    import_geometry .Box = .ok none ∧
    import_geometry .Cone = .ok none ∧
    import_geometry .Cylinder = .ok none ∧
    import_geometry .Ellipse = .ok none ∧
    import_geometry .BezierCurve = .ok none :=
  ⟨rfl, rfl, rfl, rfl, rfl, rfl⟩

/-- C7: when no valid material reference exists for a layer, its line color
comes from the layer PlotColor and its shape color from the layer Color,
and a pure black shape color is replaced by white; the final shape color is
never pure black. -/
theorem parse_layers_fallback (mats : List FCMaterial) (l : Layer3dm)
    (h : ¬ (0 < l.RenderMaterialIndex ∧ l.RenderMaterialIndex < (mats.length : ℤ))) :
    (layer_view_colors mats l).LineColor = get_color l.PlotColor ∧
    (rgbPart (get_color l.Color) = (0, 0, 0) →
      (layer_view_colors mats l).ShapeColor = (1, 1, 1)) ∧
    (rgbPart (get_color l.Color) ≠ (0, 0, 0) →
      (layer_view_colors mats l).ShapeColor = rgbPart (get_color l.Color)) ∧
    (layer_view_colors mats l).ShapeColor ≠ ((0 : ℚ), (0 : ℚ), (0 : ℚ)) := by
  have hline : (layer_view_colors mats l).LineColor = get_color l.PlotColor := by
    simp only [layer_view_colors, if_neg h]
  have hshape : (layer_view_colors mats l).ShapeColor =
      (if rgbPart (get_color l.Color) = (0, 0, 0) then (1, 1, 1)
       else rgbPart (get_color l.Color)) := by
    simp only [layer_view_colors, if_neg h]
  refine ⟨hline, ?_, ?_, ?_⟩
  · intro hb
    rw [hshape, if_pos hb]
  · intro hb
    rw [hshape, if_neg hb]
  · rw [hshape]
    by_cases hb : rgbPart (get_color l.Color) = (0, 0, 0)
    · rw [if_pos hb]
      decide
    · rw [if_neg hb]
      exact hb

/-- Witness for C7 at an empty material list and a layer with material
index -1 and a pure black display color. -/
theorem parse_layers_fallback_witness :
    (layer_view_colors [] ⟨(0, 0, 0, 255), (10, 20, 30, 40), -1⟩).LineColor =
      get_color (10, 20, 30, 40) ∧
    (layer_view_colors [] ⟨(0, 0, 0, 255), (10, 20, 30, 40), -1⟩).ShapeColor ≠
      ((0 : ℚ), (0 : ℚ), (0 : ℚ)) :=
  ⟨(parse_layers_fallback [] ⟨(0, 0, 0, 255), (10, 20, 30, 40), -1⟩ (by decide)).1,
   (parse_layers_fallback [] ⟨(0, 0, 0, 255), (10, 20, 30, 40), -1⟩ (by decide)).2.2.2⟩

/-- C9: a layer whose material index is exactly 0 takes the layer-color
fallback even when the material list is non-empty, because the material
path requires a strictly positive index. -/
theorem parse_layers_zero_index (mats : List FCMaterial) (l : Layer3dm)
    (h : l.RenderMaterialIndex = 0) :
    (layer_view_colors mats l).LineColor = get_color l.PlotColor ∧
    (layer_view_colors mats l).ShapeColor =
      (if rgbPart (get_color l.Color) = (0, 0, 0) then (1, 1, 1)
       else rgbPart (get_color l.Color)) := by
  have hneg : ¬ (0 < l.RenderMaterialIndex ∧
      l.RenderMaterialIndex < (mats.length : ℤ)) := by
    rw [h]
    simp
  have hline : (layer_view_colors mats l).LineColor = get_color l.PlotColor := by
    simp only [layer_view_colors, if_neg hneg]
  have hshape : (layer_view_colors mats l).ShapeColor =
      (if rgbPart (get_color l.Color) = (0, 0, 0) then (1, 1, 1)
       else rgbPart (get_color l.Color)) := by
    simp only [layer_view_colors, if_neg hneg]
  exact ⟨hline, hshape⟩

/-- Witness for C9 with one parsed material (so a material with index 0
exists) and a layer with material index 0. -/
theorem parse_layers_zero_index_witness :
    (layer_view_colors [⟨(255, 0, 0, 255), 0⟩] ⟨(1, 2, 3, 4), (5, 6, 7, 8), 0⟩).LineColor =
      get_color (5, 6, 7, 8) ∧
    (layer_view_colors [⟨(255, 0, 0, 255), 0⟩] ⟨(1, 2, 3, 4), (5, 6, 7, 8), 0⟩).ShapeColor =
      (if rgbPart (get_color (1, 2, 3, 4)) = (0, 0, 0) then (1, 1, 1)
       else rgbPart (get_color (1, 2, 3, 4))) :=
  parse_layers_zero_index [⟨(255, 0, 0, 255), 0⟩] ⟨(1, 2, 3, 4), (5, 6, 7, 8), 0⟩ rfl

/-- C10: a successfully translated object whose layer index is at or past
the number of parsed layers is still appended to the document, is appended
to no layer group, raises no error, and processing continues with the
remaining objects from the updated state. -/
theorem parse_objects_out_of_range (st : ImportState) (o : Obj3dm) (obj : DocObject)
    (hok : import_geometry o.geometry = .ok (some obj))
    (hidx : st.layerGroups.length ≤ o.LayerIndex) :
    parse_step st o =
      .ok { docObjects := st.docObjects ++ [obj], layerGroups := st.layerGroups } ∧
    ∀ rest : List Obj3dm,
      parse_objects (o :: rest) st =
        parse_objects rest
          { docObjects := st.docObjects ++ [obj], layerGroups := st.layerGroups } := by
  have hc : ¬ o.LayerIndex < st.layerGroups.length := by omega
  have hstep : parse_step st o =
      .ok { docObjects := st.docObjects ++ [obj], layerGroups := st.layerGroups } := by
    unfold parse_step
    simp only [hok, if_neg hc]
  refine ⟨hstep, ?_⟩
  intro rest
  conv_lhs => rw [parse_objects]
  rw [hstep]

/-- Witness for C10: an empty layer list and a point object with layer
index 0. -/
theorem parse_objects_out_of_range_witness :
    parse_step ⟨[], []⟩ ⟨0, .Point ⟨1, 2, 3⟩⟩ =
      .ok { docObjects := [] ++ [DocObject.vertex ⟨1, 2, 3⟩], layerGroups := [] } :=
  (parse_objects_out_of_range ⟨[], []⟩ ⟨0, .Point ⟨1, 2, 3⟩⟩
    (.vertex ⟨1, 2, 3⟩) rfl (by simp)).1
